import Mathlib

/-!
Shallow embedding of the `ocr_extractor` pipeline
(`src/ocr_extractor/ocr.py` and `src/ocr_extractor/storage.py`).

External collaborators (the PaddleOCR engine, the size-filter predicate,
PIL image decoding and the S3/local storage backend) are modelled as
oracles: parameters of the functions that consume them.  Everything that
is logic of the repository itself (mode routing, ordering, counters,
aggregate assembly, the storage handler's branching) is translated
directly from the source.
-/

/-- `ExtractionType` enum values (`ocr.py`, class `ExtractionType`). -/
def ExtractionType.TEXT_ONLY : Nat := 1

def ExtractionType.TABLE_ONLY : Nat := 2

def ExtractionType.TEXT_AND_TABLE : Nat := 3

def ExtractionType.IMAGE_AND_TABLE : Nat := 4

def ExtractionType.IMAGE_TABLE_COORDINATES : Nat := 5

def ExtractionType.ALL : Nat := 6

/-- Bounding box `[x1, y1, x2, y2]` of a detected region (`element["bbox"]`). -/
structure BBox where
  x1 : Int
  y1 : Int
  x2 : Int
  y2 : Int
deriving DecidableEq, Repr

/-- The `"res"` recognition payload of a region.  The engine supplies a
list of `{"text": ...}` fragments for text/figure regions, and a dict
(possibly lacking the `"html"` key) for table regions; the key may also
be absent (`element.get("res", [])`). -/
inductive ResPayload where
  | noRes : ResPayload
  | fragments : List String → ResPayload
  | tableRes : Option String → ResPayload
deriving DecidableEq, Repr

/-- One detected layout region as consumed by `OCRProcessor.process`.
`imgPassesFilter` records the outcome of the external size-filter
predicate `filter_image_by_size(element["img"])`. -/
structure Region where
  type : String
  bbox : BBox
  res : ResPayload
  imgPassesFilter : Bool
deriving DecidableEq, Repr

/-- A Python value that is either `None` or a `str`; the table record
fields store `str(content_link)` / `str(image_link)`. -/
inductive Link where
  | null : Link
  | str : String → Link
deriving DecidableEq, Repr

/-- `str(x)` applied to an optional string: Python renders `None` as the
four-character string `"None"`. -/
def pyStr : Option String → String
  | none => "None"
  | some s => s

/-- Entry of `final_combined_results["texts"]`. -/
structure TextEntry where
  page_number : Nat
  order : Nat
  content : String
deriving DecidableEq, Repr

/-- Entry of `final_combined_results["tables"]`. -/
structure TableEntry where
  page_number : Nat
  order : Nat
  content_link : Link
  image_link : Link
deriving DecidableEq, Repr

/-- Entry of `final_combined_results["images"]`. -/
structure ImageEntry where
  page_number : Nat
  images : List String
deriving DecidableEq, Repr

/-- Entry of one per-page `element_rect_coordinates` batch. -/
structure RectCoord where
  page_number : Nat
  type : String
  bbox : BBox
deriving DecidableEq, Repr

/-- `final_combined_results` (`ocr.py`, `OCRProcessor.__init__` /
`handler`), field order as in the source dict. -/
structure Aggregate where
  texts : List TextEntry
  images : List ImageEntry
  tables : List TableEntry
  rect_coordinates : List (List RectCoord)
deriving DecidableEq, Repr

/-- The reset aggregate (`handler` rebuilds it with four empty lists). -/
def Aggregate.empty : Aggregate := ⟨[], [], [], []⟩

/-- The storage collaborator as seen from `process`: each method returns
the link for the artifact, or `none` on persistence failure.  Keys are
the `filename` / `dir_type` strings the source passes. -/
structure StorageIface where
  imageLink : String → String → Option String
  fileLink : String → Option String

/-- Sort key of `sorted(results, key=lambda x: (x["bbox"][1], x["bbox"][0]))`:
the pair `(y1, x1)`. -/
def sortKey (r : Region) : Int × Int := (r.bbox.y1, r.bbox.x1)

/-- Python's tuple comparison on the `(y1, x1)` keys: lexicographic. -/
def keyLe (a b : Region) : Bool :=
  decide ((sortKey a).1 < (sortKey b).1) ||
    (decide ((sortKey a).1 = (sortKey b).1) && decide ((sortKey a).2 ≤ (sortKey b).2))

/-- The key comparison as a relation, for the sort. -/
def keyLeP (a b : Region) : Prop := keyLe a b = true

instance : DecidableRel keyLeP :=
  fun a b => inferInstanceAs (Decidable (keyLe a b = true))

/-- `sorted_results = sorted(results, key=lambda x: (x["bbox"][1], x["bbox"][0]))`.
Python's `sorted` is a stable sort on the key; embedded as the (stable)
insertion sort with the lexicographic key comparison (any two stable
sorts under the same total preorder agree). -/
def sortRegions (l : List Region) : List Region := List.insertionSort keyLeP l

/-- `for t in element.get("res", []): ... t["text"]` — the fragment list
iterated by the text-assembly branch (the engine supplies list-shaped
`res` for text/figure regions). -/
def getFragments : ResPayload → List String
  | ResPayload.fragments ts => ts
  | _ => []

/-- `"html" in element.get("res", [])`: true only when `res` is a dict
containing the `"html"` key (membership in a fragment list compares
`"html"` against dicts and is always false). -/
def hasHtml : ResPayload → Bool
  | ResPayload.tableRes (some _) => true
  | _ => false

/-- Guard of the coordinate-recording branch (`ocr.py` lines 167-172). -/
def coordCond (t : String) (mode : Nat) : Bool :=
  (t == "figure" || t == "table") &&
    (mode == ExtractionType.IMAGE_TABLE_COORDINATES || mode == ExtractionType.ALL)

/-- Guard of the figure-persistence branch (`ocr.py` lines 178-183). -/
def figureCond (t : String) (mode : Nat) : Bool :=
  (t == "figure") &&
    (mode == ExtractionType.IMAGE_AND_TABLE || mode == ExtractionType.ALL)

/-- Guard of the text-assembly branch (`ocr.py` lines 193-199). -/
def textCond (t : String) (mode : Nat) : Bool :=
  (t == "text" || t == "figure") &&
    (mode == ExtractionType.TEXT_ONLY || mode == ExtractionType.IMAGE_AND_TABLE ||
      mode == ExtractionType.ALL)

/-- Guard of the table-materialization branch (`ocr.py` lines 209-216). -/
def tableCond (t : String) (mode : Nat) : Bool :=
  (t == "table") &&
    (mode == ExtractionType.TABLE_ONLY || mode == ExtractionType.TEXT_AND_TABLE ||
      mode == ExtractionType.IMAGE_AND_TABLE || mode == ExtractionType.ALL)

/-- Left-trim whitespace, as in Python `str.strip`'s leading half. -/
def ltrim (l : List Char) : List Char := l.dropWhile Char.isWhitespace

/-- Right-trim whitespace. -/
def rtrim (l : List Char) : List Char := (l.reverse.dropWhile Char.isWhitespace).reverse

/-- Python `str.strip()`: remove leading and trailing whitespace. -/
def pyStrip (s : String) : String := String.mk (ltrim (rtrim s.data))

/-- `texts = ""; for t in res: texts += t["text"] + " "` followed by
`texts.strip()` (`ocr.py` lines 200-206). -/
def assembleText (frags : List String) : String :=
  pyStrip (frags.foldl (fun acc t => acc ++ t ++ " ") "")

/-- The mutable locals of one `process` call, together with the shared
aggregate being appended to. -/
structure LoopState where
  text_sort_number : Nat
  table_sort_number : Nat
  extracted_images : List String
  element_rect_coordinates : List RectCoord
  agg : Aggregate
deriving DecidableEq, Repr

/-- Coordinate-recording branch (`ocr.py` lines 167-177). -/
def coordStep (mode page : Nat) (e : Region) (st : LoopState) : LoopState :=
  if coordCond e.type mode then
    { st with element_rect_coordinates :=
        st.element_rect_coordinates ++ [⟨page, e.type, e.bbox⟩] }
  else st

/-- Figure-persistence branch (`ocr.py` lines 178-191). -/
def figureStep (s3 : StorageIface) (mode page idx : Nat) (e : Region) (st : LoopState) :
    LoopState :=
  if figureCond e.type mode then
    if e.imgPassesFilter then
      { st with extracted_images :=
          st.extracted_images ++ [pyStr (s3.imageLink s!"{page}_{idx}" "images")] }
    else st
  else st

/-- Text-assembly branch (`ocr.py` lines 193-208). -/
def textStep (mode page : Nat) (e : Region) (st : LoopState) : LoopState :=
  if textCond e.type mode then
    { st with
        agg := { st.agg with texts :=
          st.agg.texts ++ [⟨page, st.text_sort_number, assembleText (getFragments e.res)⟩] }
        text_sort_number := st.text_sort_number + 1 }
  else st

/-- Table-materialization branch (`ocr.py` lines 209-244); both links are
passed through `str(...)`. -/
def tableStep (s3 : StorageIface) (mode page : Nat) (e : Region) (st : LoopState) :
    LoopState :=
  if tableCond e.type mode then
    if hasHtml e.res then
      { st with
          agg := { st.agg with tables :=
            st.agg.tables ++
              [⟨page, st.table_sort_number,
                Link.str (pyStr (s3.fileLink s!"{page}_{st.table_sort_number}")),
                Link.str (pyStr (s3.imageLink s!"{page}_{st.table_sort_number}" "tables"))⟩] }
          table_sort_number := st.table_sort_number + 1 }
    else st
  else st

/-- One iteration of the `for idx, element in enumerate(sorted_results)`
loop: the four branches in source order. -/
def processElement (s3 : StorageIface) (mode page idx : Nat) (e : Region) (st : LoopState) :
    LoopState :=
  tableStep s3 mode page e (textStep mode page e (figureStep s3 mode page idx e (coordStep mode page e st)))

/-- The region loop of `process`, threading the enumeration index. -/
def processLoop (s3 : StorageIface) (mode page : Nat) :
    Nat → List Region → LoopState → LoopState
  | _, [], st => st
  | idx, e :: rest, st =>
      processLoop s3 mode page (idx + 1) rest (processElement s3 mode page idx e st)

/-- End-of-page aggregation (`ocr.py` lines 245-251): `if extracted_images:`
append one `{page_number, images}` entry; `if element_rect_coordinates:`
append the per-page coordinate batch. -/
def finalize (page_number : Nat) (st : LoopState) : Aggregate :=
  let agg₁ := st.agg
  let agg₂ :=
    if st.extracted_images.isEmpty then agg₁
    else { agg₁ with images := agg₁.images ++ [⟨page_number, st.extracted_images⟩] }
  if st.element_rect_coordinates.isEmpty then agg₂
  else { agg₂ with rect_coordinates :=
          agg₂.rect_coordinates ++ [st.element_rect_coordinates] }

/-- `OCRProcessor.process` (`ocr.py` lines 150-251).  The engine
invocation is external; its outcome (`.error` when `self.ocr_engine`
raises) is a parameter.  On an engine exception the method logs and
returns, leaving the aggregate untouched. -/
def process (s3 : StorageIface) (mode : Nat) (engineResult : Except Unit (List Region))
    (page_number : Nat) (agg : Aggregate) : Aggregate :=
  match engineResult with
  | Except.error _ => agg
  | Except.ok results =>
      let sorted_results := sortRegions results
      finalize page_number (processLoop s3 mode page_number 0 sorted_results ⟨0, 0, [], [], agg⟩)

/-- Outcome of locating/decoding the source image file: `missing` when
`os.path.isfile` is false, `undecodable` when `Image.open` raises, and
`decoded` with the (abstract) pixel data otherwise. -/
inductive SourceFile where
  | missing : SourceFile
  | undecodable : SourceFile
  | decoded : Nat → SourceFile
deriving DecidableEq, Repr

/-- A PDF document source: missing file (the page generator yields
nothing) or a decoded list of per-page images. -/
inductive PdfSource where
  | missing : PdfSource
  | decoded : List Nat → PdfSource
deriving DecidableEq, Repr

/-- Input of `handler`: a single image (`is_image = True`) or a scanned
PDF. -/
inductive DocInput where
  | docImage : SourceFile → DocInput
  | docPdf : PdfSource → DocInput
deriving DecidableEq, Repr

/-- `OCRBase.read_image` (`ocr.py` lines 50-57): returns `None` (after a
logged warning) when the file is missing; an exception raised by the
external decoder (`Image.open`) propagates, as nothing catches it. -/
def read_image : SourceFile → Except Unit (Option Nat)
  | SourceFile.missing => Except.ok none
  | SourceFile.undecodable => Except.error ()
  | SourceFile.decoded img => Except.ok (some img)

/-- The `for page_num, image_data in self.read_pdf_scanned_doc()` loop of
`handler` (`ocr.py` lines 266-268): pages processed in order with their
0-based index. -/
def processPages (s3 : StorageIface) (mode : Nat)
    (engine : Option Nat → Except Unit (List Region)) :
    Nat → List Nat → Aggregate → Aggregate
  | _, [], agg => agg
  | pg, img :: rest, agg =>
      processPages s3 mode engine (pg + 1) rest (process s3 mode (engine (some img)) pg agg)

/-- Modelled from the spec (partial-failure containment, used only to
*state* claim C4): the same page loop, except that the page numbered `k`
is skipped outright and contributes nothing. -/
def processPagesSkipping (s3 : StorageIface) (mode : Nat)
    (engine : Option Nat → Except Unit (List Region)) (k : Nat) :
    Nat → List Nat → Aggregate → Aggregate
  | _, [], agg => agg
  | pg, img :: rest, agg =>
      processPagesSkipping s3 mode engine k (pg + 1) rest
        (if pg = k then agg else process s3 mode (engine (some img)) pg agg)

/-- `OCRProcessor.handler` (`ocr.py` lines 253-270).  The engine is the
external oracle `engine`; it is invoked on the decoded image (or on the
`None` returned by `read_image` for a missing file).  An exception from
`read_image` propagates out of `handler`, which catches nothing. -/
def handler (s3 : StorageIface) (mode : Nat)
    (engine : Option Nat → Except Unit (List Region)) :
    DocInput → Except Unit Aggregate
  | DocInput.docImage f =>
      match read_image f with
      | Except.error e => Except.error e
      | Except.ok image_data =>
          Except.ok (process s3 mode (engine image_data) 0 Aggregate.empty)
  | DocInput.docPdf PdfSource.missing => Except.ok Aggregate.empty
  | DocInput.docPdf (PdfSource.decoded pages) =>
      Except.ok (processPages s3 mode engine 0 pages Aggregate.empty)

/-- Python truthiness of an optional string field (`None` and `""` are
falsy). -/
def pyTruthyStr : Option String → Bool
  | none => false
  | some s => !(s == "")

/-- `StorageHandler` (`storage.py`): configuration plus the outcomes of
the external S3 calls (`upload_file` raising `ClientError`, and the link
returned by `generate_presigned_url`).  The `s3_client` member is always
a truthy boto3 object. -/
structure StorageHandler where
  use_s3 : Bool
  bucket_name : Option String
  bucket_key : Option String
  upload_file_ok : Bool
  presigned : Option String

/-- `StorageHandler.get_s3_link_or_local_path_for_file` (`storage.py`
lines 105-132): with full S3 configuration it uploads and returns the
presigned link (or `None` on `ClientError`); otherwise it logs and
returns `src_filename` itself. -/
def get_s3_link_or_local_path_for_file (h : StorageHandler)
    (src_filename filename file_ext : String) : Option String :=
  if h.use_s3 && pyTruthyStr h.bucket_name && pyTruthyStr h.bucket_key then
    if h.upload_file_ok then h.presigned else none
  else
    some src_filename

/-- Modelled from the spec's words for claim C6 only: "concatenate
fragments with a single separating space". -/
def sepJoin : List String → String
  | [] => ""
  | [t] => t
  | t :: rest => t ++ " " ++ sepJoin rest

/-! ### Characterization of the four per-region branches -/

theorem coordStep_agg (mode page : Nat) (e : Region) (st : LoopState) :
    (coordStep mode page e st).agg = st.agg := by
  unfold coordStep; split <;> rfl

theorem coordStep_text_sort (mode page : Nat) (e : Region) (st : LoopState) :
    (coordStep mode page e st).text_sort_number = st.text_sort_number := by
  unfold coordStep; split <;> rfl

theorem coordStep_table_sort (mode page : Nat) (e : Region) (st : LoopState) :
    (coordStep mode page e st).table_sort_number = st.table_sort_number := by
  unfold coordStep; split <;> rfl

theorem coordStep_images (mode page : Nat) (e : Region) (st : LoopState) :
    (coordStep mode page e st).extracted_images = st.extracted_images := by
  unfold coordStep; split <;> rfl

theorem coordStep_rect (mode page : Nat) (e : Region) (st : LoopState) :
    (coordStep mode page e st).element_rect_coordinates =
      st.element_rect_coordinates ++
        (if coordCond e.type mode then [⟨page, e.type, e.bbox⟩] else []) := by
  unfold coordStep; split <;> simp

theorem figureStep_agg (s3 : StorageIface) (mode page idx : Nat) (e : Region)
    (st : LoopState) : (figureStep s3 mode page idx e st).agg = st.agg := by
  unfold figureStep; split <;> [skip; rfl]; split <;> rfl

theorem figureStep_text_sort (s3 : StorageIface) (mode page idx : Nat) (e : Region)
    (st : LoopState) :
    (figureStep s3 mode page idx e st).text_sort_number = st.text_sort_number := by
  unfold figureStep; split <;> [skip; rfl]; split <;> rfl

theorem figureStep_table_sort (s3 : StorageIface) (mode page idx : Nat) (e : Region)
    (st : LoopState) :
    (figureStep s3 mode page idx e st).table_sort_number = st.table_sort_number := by
  unfold figureStep; split <;> [skip; rfl]; split <;> rfl

theorem figureStep_rect (s3 : StorageIface) (mode page idx : Nat) (e : Region)
    (st : LoopState) :
    (figureStep s3 mode page idx e st).element_rect_coordinates =
      st.element_rect_coordinates := by
  unfold figureStep; split <;> [skip; rfl]; split <;> rfl

theorem textStep_texts (mode page : Nat) (e : Region) (st : LoopState) :
    (textStep mode page e st).agg.texts =
      st.agg.texts ++
        (if textCond e.type mode then
          [⟨page, st.text_sort_number, assembleText (getFragments e.res)⟩] else []) := by
  unfold textStep; split <;> simp

theorem textStep_text_sort (mode page : Nat) (e : Region) (st : LoopState) :
    (textStep mode page e st).text_sort_number =
      st.text_sort_number + (if textCond e.type mode then 1 else 0) := by
  unfold textStep; split <;> simp

theorem textStep_tables (mode page : Nat) (e : Region) (st : LoopState) :
    (textStep mode page e st).agg.tables = st.agg.tables := by
  unfold textStep; split <;> rfl

theorem textStep_table_sort (mode page : Nat) (e : Region) (st : LoopState) :
    (textStep mode page e st).table_sort_number = st.table_sort_number := by
  unfold textStep; split <;> rfl

theorem textStep_images_field (mode page : Nat) (e : Region) (st : LoopState) :
    (textStep mode page e st).agg.images = st.agg.images := by
  unfold textStep; split <;> rfl

theorem textStep_rect_field (mode page : Nat) (e : Region) (st : LoopState) :
    (textStep mode page e st).agg.rect_coordinates = st.agg.rect_coordinates := by
  unfold textStep; split <;> rfl

theorem textStep_images (mode page : Nat) (e : Region) (st : LoopState) :
    (textStep mode page e st).extracted_images = st.extracted_images := by
  unfold textStep; split <;> rfl

theorem textStep_rect (mode page : Nat) (e : Region) (st : LoopState) :
    (textStep mode page e st).element_rect_coordinates = st.element_rect_coordinates := by
  unfold textStep; split <;> rfl

theorem tableStep_tables (s3 : StorageIface) (mode page : Nat) (e : Region)
    (st : LoopState) :
    (tableStep s3 mode page e st).agg.tables =
      st.agg.tables ++
        (if tableCond e.type mode && hasHtml e.res then
          [⟨page, st.table_sort_number,
            Link.str (pyStr (s3.fileLink s!"{page}_{st.table_sort_number}")),
            Link.str (pyStr (s3.imageLink s!"{page}_{st.table_sort_number}" "tables"))⟩]
         else []) := by
  unfold tableStep
  by_cases h₁ : tableCond e.type mode <;> by_cases h₂ : hasHtml e.res <;>
    simp [h₁, h₂]

theorem tableStep_table_sort (s3 : StorageIface) (mode page : Nat) (e : Region)
    (st : LoopState) :
    (tableStep s3 mode page e st).table_sort_number =
      st.table_sort_number + (if tableCond e.type mode && hasHtml e.res then 1 else 0) := by
  unfold tableStep
  by_cases h₁ : tableCond e.type mode <;> by_cases h₂ : hasHtml e.res <;>
    simp [h₁, h₂]

theorem tableStep_texts (s3 : StorageIface) (mode page : Nat) (e : Region)
    (st : LoopState) : (tableStep s3 mode page e st).agg.texts = st.agg.texts := by
  unfold tableStep; split <;> [skip; rfl]; split <;> rfl

theorem tableStep_text_sort (s3 : StorageIface) (mode page : Nat) (e : Region)
    (st : LoopState) :
    (tableStep s3 mode page e st).text_sort_number = st.text_sort_number := by
  unfold tableStep; split <;> [skip; rfl]; split <;> rfl

theorem tableStep_images_field (s3 : StorageIface) (mode page : Nat) (e : Region)
    (st : LoopState) : (tableStep s3 mode page e st).agg.images = st.agg.images := by
  unfold tableStep; split <;> [skip; rfl]; split <;> rfl

theorem tableStep_rect_field (s3 : StorageIface) (mode page : Nat) (e : Region)
    (st : LoopState) :
    (tableStep s3 mode page e st).agg.rect_coordinates = st.agg.rect_coordinates := by
  unfold tableStep; split <;> [skip; rfl]; split <;> rfl

theorem tableStep_images (s3 : StorageIface) (mode page : Nat) (e : Region)
    (st : LoopState) :
    (tableStep s3 mode page e st).extracted_images = st.extracted_images := by
  unfold tableStep; split <;> [skip; rfl]; split <;> rfl

theorem tableStep_rect (s3 : StorageIface) (mode page : Nat) (e : Region)
    (st : LoopState) :
    (tableStep s3 mode page e st).element_rect_coordinates =
      st.element_rect_coordinates := by
  unfold tableStep; split <;> [skip; rfl]; split <;> rfl

theorem figureStep_images (s3 : StorageIface) (mode page idx : Nat) (e : Region)
    (st : LoopState) :
    (figureStep s3 mode page idx e st).extracted_images =
      st.extracted_images ++
        (if figureCond e.type mode && e.imgPassesFilter then
          [pyStr (s3.imageLink s!"{page}_{idx}" "images")] else []) := by
  unfold figureStep
  by_cases h₁ : figureCond e.type mode <;> by_cases h₂ : e.imgPassesFilter <;>
    simp [h₁, h₂]

/-! ### Characterization of one full loop iteration -/

theorem processElement_texts (s3 : StorageIface) (mode page idx : Nat) (e : Region)
    (st : LoopState) :
    (processElement s3 mode page idx e st).agg.texts =
      st.agg.texts ++
        (if textCond e.type mode then
          [⟨page, st.text_sort_number, assembleText (getFragments e.res)⟩] else []) := by
  simp [processElement, tableStep_texts, textStep_texts, figureStep_agg, coordStep_agg,
    figureStep_text_sort, coordStep_text_sort]

theorem processElement_text_sort (s3 : StorageIface) (mode page idx : Nat) (e : Region)
    (st : LoopState) :
    (processElement s3 mode page idx e st).text_sort_number =
      st.text_sort_number + (if textCond e.type mode then 1 else 0) := by
  simp [processElement, tableStep_text_sort, textStep_text_sort, figureStep_text_sort,
    coordStep_text_sort]

theorem processElement_tables (s3 : StorageIface) (mode page idx : Nat) (e : Region)
    (st : LoopState) :
    (processElement s3 mode page idx e st).agg.tables =
      st.agg.tables ++
        (if tableCond e.type mode && hasHtml e.res then
          [⟨page, st.table_sort_number,
            Link.str (pyStr (s3.fileLink s!"{page}_{st.table_sort_number}")),
            Link.str (pyStr (s3.imageLink s!"{page}_{st.table_sort_number}" "tables"))⟩]
         else []) := by
  simp [processElement, tableStep_tables, textStep_tables, textStep_table_sort,
    figureStep_agg, coordStep_agg, figureStep_table_sort, coordStep_table_sort]

theorem processElement_table_sort (s3 : StorageIface) (mode page idx : Nat) (e : Region)
    (st : LoopState) :
    (processElement s3 mode page idx e st).table_sort_number =
      st.table_sort_number + (if tableCond e.type mode && hasHtml e.res then 1 else 0) := by
  simp [processElement, tableStep_table_sort, textStep_table_sort, figureStep_table_sort,
    coordStep_table_sort]

theorem processElement_rect (s3 : StorageIface) (mode page idx : Nat) (e : Region)
    (st : LoopState) :
    (processElement s3 mode page idx e st).element_rect_coordinates =
      st.element_rect_coordinates ++
        (if coordCond e.type mode then [⟨page, e.type, e.bbox⟩] else []) := by
  simp [processElement, tableStep_rect, textStep_rect, figureStep_rect, coordStep_rect]

theorem processElement_images (s3 : StorageIface) (mode page idx : Nat) (e : Region)
    (st : LoopState) :
    (processElement s3 mode page idx e st).extracted_images =
      st.extracted_images ++
        (if figureCond e.type mode && e.imgPassesFilter then
          [pyStr (s3.imageLink s!"{page}_{idx}" "images")] else []) := by
  simp [processElement, tableStep_images, textStep_images, figureStep_images,
    coordStep_images]

theorem processElement_images_field (s3 : StorageIface) (mode page idx : Nat) (e : Region)
    (st : LoopState) :
    (processElement s3 mode page idx e st).agg.images = st.agg.images := by
  simp [processElement, tableStep_images_field, textStep_images_field, figureStep_agg,
    coordStep_agg]

theorem processElement_rect_field (s3 : StorageIface) (mode page idx : Nat) (e : Region)
    (st : LoopState) :
    (processElement s3 mode page idx e st).agg.rect_coordinates =
      st.agg.rect_coordinates := by
  simp [processElement, tableStep_rect_field, textStep_rect_field, figureStep_agg,
    coordStep_agg]

/-! ### Loop-level lemmas -/

theorem processLoop_texts (s3 : StorageIface) (mode page : Nat) :
    ∀ (l : List Region) (idx : Nat) (st : LoopState),
    ∃ ts, (processLoop s3 mode page idx l st).agg.texts = st.agg.texts ++ ts ∧
      ts.map (fun e => e.order) =
        List.range' st.text_sort_number (l.countP (fun e => textCond e.type mode)) ∧
      ∀ e ∈ ts, e.page_number = page
  | [], idx, st => ⟨[], by simp [processLoop]⟩
  | e :: rest, idx, st => by
    obtain ⟨ts', h1, h2, h3⟩ :=
      processLoop_texts s3 mode page rest (idx + 1) (processElement s3 mode page idx e st)
    by_cases hc : textCond e.type mode
    · refine ⟨⟨page, st.text_sort_number, assembleText (getFragments e.res)⟩ :: ts',
        ?_, ?_, ?_⟩
      · rw [processLoop, h1, processElement_texts]; simp [hc]
      · rw [List.map_cons, h2, processElement_text_sort, List.countP_cons]
        simp only [hc, if_true]
        rw [List.range'_succ]
      · intro x hx
        rcases List.mem_cons.mp hx with h | h
        · rw [h]
        · exact h3 x h
    · refine ⟨ts', ?_, ?_, h3⟩
      · rw [processLoop, h1, processElement_texts]; simp [hc]
      · rw [h2, processElement_text_sort, List.countP_cons]
        simp [hc]

theorem processLoop_tables (s3 : StorageIface) (mode page : Nat) :
    ∀ (l : List Region) (idx : Nat) (st : LoopState),
    ∃ ts, (processLoop s3 mode page idx l st).agg.tables = st.agg.tables ++ ts ∧
      ts.map (fun e => e.order) =
        List.range' st.table_sort_number
          (l.countP (fun e => tableCond e.type mode && hasHtml e.res)) ∧
      ∀ e ∈ ts, e.page_number = page
  | [], idx, st => ⟨[], by simp [processLoop]⟩
  | e :: rest, idx, st => by
    obtain ⟨ts', h1, h2, h3⟩ :=
      processLoop_tables s3 mode page rest (idx + 1) (processElement s3 mode page idx e st)
    by_cases hc : tableCond e.type mode && hasHtml e.res
    · refine ⟨⟨page, st.table_sort_number,
          Link.str (pyStr (s3.fileLink s!"{page}_{st.table_sort_number}")),
          Link.str (pyStr (s3.imageLink s!"{page}_{st.table_sort_number}" "tables"))⟩ :: ts',
        ?_, ?_, ?_⟩
      · rw [processLoop, h1, processElement_tables]; simp [hc]
      · rw [List.map_cons, h2, processElement_table_sort, List.countP_cons]
        simp only [hc, if_true]
        rw [List.range'_succ]
      · intro x hx
        rcases List.mem_cons.mp hx with h | h
        · rw [h]
        · exact h3 x h
    · refine ⟨ts', ?_, ?_, h3⟩
      · rw [processLoop, h1, processElement_tables]; simp [hc]
      · rw [h2, processElement_table_sort, List.countP_cons]
        simp [hc]

theorem processLoop_images_field (s3 : StorageIface) (mode page : Nat) :
    ∀ (l : List Region) (idx : Nat) (st : LoopState),
    (processLoop s3 mode page idx l st).agg.images = st.agg.images
  | [], idx, st => rfl
  | e :: rest, idx, st => by
    rw [processLoop,
      processLoop_images_field s3 mode page rest (idx + 1) (processElement s3 mode page idx e st),
      processElement_images_field]

theorem processLoop_rect_field (s3 : StorageIface) (mode page : Nat) :
    ∀ (l : List Region) (idx : Nat) (st : LoopState),
    (processLoop s3 mode page idx l st).agg.rect_coordinates = st.agg.rect_coordinates
  | [], idx, st => rfl
  | e :: rest, idx, st => by
    rw [processLoop,
      processLoop_rect_field s3 mode page rest (idx + 1) (processElement s3 mode page idx e st),
      processElement_rect_field]

theorem processLoop_rect_mem (s3 : StorageIface) (mode page : Nat) :
    ∀ (l : List Region) (idx : Nat) (st : LoopState),
    ∀ c ∈ (processLoop s3 mode page idx l st).element_rect_coordinates,
      c ∈ st.element_rect_coordinates ∨ c.page_number = page
  | [], idx, st => fun c hc => Or.inl hc
  | e :: rest, idx, st => by
    intro c hc
    rcases processLoop_rect_mem s3 mode page rest (idx + 1)
        (processElement s3 mode page idx e st) c hc with h | h
    · rw [processElement_rect] at h
      rcases List.mem_append.mp h with h' | h'
      · exact Or.inl h'
      · right
        by_cases hcc : coordCond e.type mode
        · simp [hcc] at h'
          rw [h']
        · simp [hcc] at h'
    · exact Or.inr h

/-! ### Process-level lemmas -/

theorem finalize_texts (page : Nat) (st : LoopState) :
    (finalize page st).texts = st.agg.texts := by
  unfold finalize
  by_cases h : st.extracted_images.isEmpty <;>
    by_cases h' : st.element_rect_coordinates.isEmpty <;> simp [h, h']

theorem finalize_tables (page : Nat) (st : LoopState) :
    (finalize page st).tables = st.agg.tables := by
  unfold finalize
  by_cases h : st.extracted_images.isEmpty <;>
    by_cases h' : st.element_rect_coordinates.isEmpty <;> simp [h, h']

theorem finalize_images (page : Nat) (st : LoopState) :
    (finalize page st).images =
      st.agg.images ++
        (if st.extracted_images.isEmpty then [] else [⟨page, st.extracted_images⟩]) := by
  unfold finalize
  by_cases h : st.extracted_images.isEmpty <;>
    by_cases h' : st.element_rect_coordinates.isEmpty <;> simp [h, h']

theorem finalize_rect (page : Nat) (st : LoopState) :
    (finalize page st).rect_coordinates =
      st.agg.rect_coordinates ++
        (if st.element_rect_coordinates.isEmpty then []
         else [st.element_rect_coordinates]) := by
  unfold finalize
  by_cases h : st.extracted_images.isEmpty <;>
    by_cases h' : st.element_rect_coordinates.isEmpty <;> simp [h, h']

theorem process_error (s3 : StorageIface) (mode : Nat) (u : Unit) (page : Nat)
    (agg : Aggregate) : process s3 mode (Except.error u) page agg = agg := rfl

theorem process_texts (s3 : StorageIface) (mode : Nat) (results : List Region)
    (page : Nat) (agg : Aggregate) :
    ∃ ts, (process s3 mode (Except.ok results) page agg).texts = agg.texts ++ ts ∧
      ts.map (fun e => e.order) =
        List.range ((sortRegions results).countP (fun e => textCond e.type mode)) ∧
      ∀ e ∈ ts, e.page_number = page := by
  obtain ⟨ts, h1, h2, h3⟩ :=
    processLoop_texts s3 mode page (sortRegions results) 0 ⟨0, 0, [], [], agg⟩
  refine ⟨ts, ?_, ?_, h3⟩
  · show (finalize page _).texts = _
    rw [finalize_texts]
    exact h1
  · rw [h2, List.range_eq_range']

theorem process_tables (s3 : StorageIface) (mode : Nat) (results : List Region)
    (page : Nat) (agg : Aggregate) :
    ∃ ts, (process s3 mode (Except.ok results) page agg).tables = agg.tables ++ ts ∧
      ts.map (fun e => e.order) =
        List.range
          ((sortRegions results).countP (fun e => tableCond e.type mode && hasHtml e.res)) ∧
      ∀ e ∈ ts, e.page_number = page := by
  obtain ⟨ts, h1, h2, h3⟩ :=
    processLoop_tables s3 mode page (sortRegions results) 0 ⟨0, 0, [], [], agg⟩
  refine ⟨ts, ?_, ?_, h3⟩
  · show (finalize page _).tables = _
    rw [finalize_tables]
    exact h1
  · rw [h2, List.range_eq_range']

theorem process_texts_char (s3 : StorageIface) (mode : Nat)
    (r : Except Unit (List Region)) (page : Nat) (agg : Aggregate) :
    ∃ ts, (process s3 mode r page agg).texts = agg.texts ++ ts ∧
      ∀ e ∈ ts, e.page_number = page := by
  cases r with
  | error u => exact ⟨[], by simp [process]⟩
  | ok results =>
      obtain ⟨ts, h1, _, h3⟩ := process_texts s3 mode results page agg
      exact ⟨ts, h1, h3⟩

theorem process_tables_char (s3 : StorageIface) (mode : Nat)
    (r : Except Unit (List Region)) (page : Nat) (agg : Aggregate) :
    ∃ ts, (process s3 mode r page agg).tables = agg.tables ++ ts ∧
      ∀ e ∈ ts, e.page_number = page := by
  cases r with
  | error u => exact ⟨[], by simp [process]⟩
  | ok results =>
      obtain ⟨ts, h1, _, h3⟩ := process_tables s3 mode results page agg
      exact ⟨ts, h1, h3⟩

theorem process_images_char (s3 : StorageIface) (mode : Nat)
    (r : Except Unit (List Region)) (page : Nat) (agg : Aggregate) :
    ∃ gs, (process s3 mode r page agg).images = agg.images ++ gs ∧
      ∀ e ∈ gs, e.page_number = page := by
  cases r with
  | error u => exact ⟨[], by simp [process]⟩
  | ok results =>
      refine ⟨(if (processLoop s3 mode page 0 (sortRegions results)
          ⟨0, 0, [], [], agg⟩).extracted_images.isEmpty then []
        else [⟨page, (processLoop s3 mode page 0 (sortRegions results)
          ⟨0, 0, [], [], agg⟩).extracted_images⟩]), ?_, ?_⟩
      · show (finalize page _).images = _
        rw [finalize_images, processLoop_images_field]
      · intro e he
        split at he
        · simp at he
        · simp at he
          rw [he]

theorem process_rect_char (s3 : StorageIface) (mode : Nat)
    (r : Except Unit (List Region)) (page : Nat) (agg : Aggregate) :
    ∃ bs, (process s3 mode r page agg).rect_coordinates = agg.rect_coordinates ++ bs ∧
      ∀ b ∈ bs, ∀ c ∈ b, c.page_number = page := by
  cases r with
  | error u => exact ⟨[], by simp [process]⟩
  | ok results =>
      refine ⟨(if (processLoop s3 mode page 0 (sortRegions results)
          ⟨0, 0, [], [], agg⟩).element_rect_coordinates.isEmpty then []
        else [(processLoop s3 mode page 0 (sortRegions results)
          ⟨0, 0, [], [], agg⟩).element_rect_coordinates]), ?_, ?_⟩
      · show (finalize page _).rect_coordinates = _
        rw [finalize_rect, processLoop_rect_field]
      · intro b hb
        split at hb
        · simp at hb
        · simp at hb
          intro c hc
          rcases processLoop_rect_mem s3 mode page (sortRegions results) 0
              ⟨0, 0, [], [], agg⟩ c (hb ▸ hc) with h | h
          · simp at h
          · exact h

/-! ### Page-loop lemmas -/

theorem processPages_eq_skipping (s3 : StorageIface) (mode : Nat)
    (engine : Option Nat → Except Unit (List Region)) (k : Nat) :
    ∀ (pages : List Nat) (pg : Nat) (agg : Aggregate),
    (∀ i (h : i < pages.length), pg + i = k → engine (some pages[i]) = Except.error ()) →
    processPages s3 mode engine pg pages agg =
      processPagesSkipping s3 mode engine k pg pages agg
  | [], pg, agg, _ => rfl
  | img :: rest, pg, agg, h => by
    have hrest : ∀ i (hi : i < rest.length), (pg + 1) + i = k →
        engine (some rest[i]) = Except.error () := by
      intro i hi hik
      have := h (i + 1) (by simpa using Nat.succ_lt_succ hi) (by omega)
      simpa using this
    rw [processPages, processPagesSkipping]
    by_cases hpg : pg = k
    · have h0 : engine (some img) = Except.error () := by
        have := h 0 (by simp) (by omega)
        simpa using this
      rw [if_pos hpg, h0, process_error]
      exact processPages_eq_skipping s3 mode engine k rest (pg + 1) agg hrest
    · rw [if_neg hpg]
      exact processPages_eq_skipping s3 mode engine k rest (pg + 1) _ hrest

theorem skipping_texts_mem (s3 : StorageIface) (mode : Nat)
    (engine : Option Nat → Except Unit (List Region)) (k : Nat) :
    ∀ (pages : List Nat) (pg : Nat) (agg : Aggregate),
    ∀ e ∈ (processPagesSkipping s3 mode engine k pg pages agg).texts,
      e ∈ agg.texts ∨ e.page_number ≠ k
  | [], _, _ => fun _ he => Or.inl he
  | img :: rest, pg, agg => by
    intro e he
    rw [processPagesSkipping] at he
    by_cases hpg : pg = k
    · rw [if_pos hpg] at he
      exact skipping_texts_mem s3 mode engine k rest (pg + 1) agg e he
    · rw [if_neg hpg] at he
      rcases skipping_texts_mem s3 mode engine k rest (pg + 1) _ e he with h | h
      · obtain ⟨ts, h1, h3⟩ := process_texts_char s3 mode (engine (some img)) pg agg
        rw [h1] at h
        rcases List.mem_append.mp h with h' | h'
        · exact Or.inl h'
        · exact Or.inr (by rw [h3 e h']; exact hpg)
      · exact Or.inr h

theorem skipping_tables_mem (s3 : StorageIface) (mode : Nat)
    (engine : Option Nat → Except Unit (List Region)) (k : Nat) :
    ∀ (pages : List Nat) (pg : Nat) (agg : Aggregate),
    ∀ e ∈ (processPagesSkipping s3 mode engine k pg pages agg).tables,
      e ∈ agg.tables ∨ e.page_number ≠ k
  | [], _, _ => fun _ he => Or.inl he
  | img :: rest, pg, agg => by
    intro e he
    rw [processPagesSkipping] at he
    by_cases hpg : pg = k
    · rw [if_pos hpg] at he
      exact skipping_tables_mem s3 mode engine k rest (pg + 1) agg e he
    · rw [if_neg hpg] at he
      rcases skipping_tables_mem s3 mode engine k rest (pg + 1) _ e he with h | h
      · obtain ⟨ts, h1, h3⟩ := process_tables_char s3 mode (engine (some img)) pg agg
        rw [h1] at h
        rcases List.mem_append.mp h with h' | h'
        · exact Or.inl h'
        · exact Or.inr (by rw [h3 e h']; exact hpg)
      · exact Or.inr h

theorem skipping_images_mem (s3 : StorageIface) (mode : Nat)
    (engine : Option Nat → Except Unit (List Region)) (k : Nat) :
    ∀ (pages : List Nat) (pg : Nat) (agg : Aggregate),
    ∀ e ∈ (processPagesSkipping s3 mode engine k pg pages agg).images,
      e ∈ agg.images ∨ e.page_number ≠ k
  | [], _, _ => fun _ he => Or.inl he
  | img :: rest, pg, agg => by
    intro e he
    rw [processPagesSkipping] at he
    by_cases hpg : pg = k
    · rw [if_pos hpg] at he
      exact skipping_images_mem s3 mode engine k rest (pg + 1) agg e he
    · rw [if_neg hpg] at he
      rcases skipping_images_mem s3 mode engine k rest (pg + 1) _ e he with h | h
      · obtain ⟨gs, h1, h3⟩ := process_images_char s3 mode (engine (some img)) pg agg
        rw [h1] at h
        rcases List.mem_append.mp h with h' | h'
        · exact Or.inl h'
        · exact Or.inr (by rw [h3 e h']; exact hpg)
      · exact Or.inr h

theorem skipping_rect_mem (s3 : StorageIface) (mode : Nat)
    (engine : Option Nat → Except Unit (List Region)) (k : Nat) :
    ∀ (pages : List Nat) (pg : Nat) (agg : Aggregate),
    ∀ b ∈ (processPagesSkipping s3 mode engine k pg pages agg).rect_coordinates,
      b ∈ agg.rect_coordinates ∨ ∀ c ∈ b, c.page_number ≠ k
  | [], _, _ => fun _ hb => Or.inl hb
  | img :: rest, pg, agg => by
    intro b hb
    rw [processPagesSkipping] at hb
    by_cases hpg : pg = k
    · rw [if_pos hpg] at hb
      exact skipping_rect_mem s3 mode engine k rest (pg + 1) agg b hb
    · rw [if_neg hpg] at hb
      rcases skipping_rect_mem s3 mode engine k rest (pg + 1) _ b hb with h | h
      · obtain ⟨bs, h1, h3⟩ := process_rect_char s3 mode (engine (some img)) pg agg
        rw [h1] at h
        rcases List.mem_append.mp h with h' | h'
        · exact Or.inl h'
        · exact Or.inr (fun c hc => by rw [h3 b h' c hc]; exact hpg)
      · exact Or.inr h

/-! ### Ordering lemmas -/

theorem keyLe_trans (a b c : Region) (h1 : keyLe a b) (h2 : keyLe b c) : keyLe a c := by
  simp only [keyLe, Bool.or_eq_true, Bool.and_eq_true, decide_eq_true_eq] at h1 h2 ⊢
  omega

theorem keyLe_total (a b : Region) : keyLe a b || keyLe b a := by
  simp only [keyLe, Bool.or_eq_true, Bool.and_eq_true, decide_eq_true_eq]
  omega

theorem keyLe_of_sortKey_eq {a b : Region} (h : sortKey a = sortKey b) : keyLe a b := by
  simp only [keyLe, Bool.or_eq_true, Bool.and_eq_true, decide_eq_true_eq, h]
  exact Or.inr ⟨trivial, le_refl _⟩

instance : IsTotal Region keyLeP :=
  ⟨fun a b => by
    have h := keyLe_total a b
    simp only [Bool.or_eq_true] at h
    exact h⟩

instance : IsTrans Region keyLeP :=
  ⟨fun a b c h1 h2 => keyLe_trans a b c h1 h2⟩

theorem sortRegions_sorted (l : List Region) :
    (sortRegions l).Pairwise keyLeP :=
  List.sorted_insertionSort keyLeP l

theorem sortRegions_perm (l : List Region) : (sortRegions l).Perm l :=
  List.perm_insertionSort keyLeP l

theorem sortRegions_filter_key (l : List Region) (v : Int × Int) :
    (sortRegions l).filter (fun r => decide (sortKey r = v)) =
      l.filter (fun r => decide (sortKey r = v)) := by
  have hsub : List.Sublist (l.filter (fun r => decide (sortKey r = v))) l :=
    List.filter_sublist l
  have hpair : (l.filter (fun r => decide (sortKey r = v))).Pairwise keyLeP := by
    apply List.pairwise_of_forall_mem_list
    intro a ha b hb
    have ha' := (List.mem_filter.mp ha).2
    have hb' := (List.mem_filter.mp hb).2
    simp only [decide_eq_true_eq] at ha' hb'
    exact keyLe_of_sortKey_eq (by rw [ha', hb'])
  have h2 : List.Sublist (l.filter (fun r => decide (sortKey r = v))) (sortRegions l) :=
    List.sublist_insertionSort hpair hsub
  have hself : (l.filter (fun r => decide (sortKey r = v))).filter
      (fun r => decide (sortKey r = v)) = l.filter (fun r => decide (sortKey r = v)) :=
    List.filter_eq_self.mpr (fun a ha => (List.mem_filter.mp ha).2)
  have h3 : List.Sublist (l.filter (fun r => decide (sortKey r = v)))
      ((sortRegions l).filter (fun r => decide (sortKey r = v))) := by
    have := h2.filter (fun r => decide (sortKey r = v))
    rw [hself] at this
    exact this
  have h4 : ((sortRegions l).filter (fun r => decide (sortKey r = v))).Perm
      (l.filter (fun r => decide (sortKey r = v))) :=
    (sortRegions_perm l).filter (fun r => decide (sortKey r = v))
  exact (h3.eq_of_length h4.length_eq.symm).symm

/-! ### String-assembly lemmas -/

theorem rtrim_append_space (l : List Char) : rtrim (l ++ [' ']) = rtrim l := by
  have hsp : (' ' : Char).isWhitespace = true := by decide
  simp [rtrim, List.reverse_append, List.dropWhile_cons, hsp]

theorem pyStrip_append_space (s : String) : pyStrip (s ++ " ") = pyStrip s := by
  have hdata : (s ++ " ").data = s.data ++ [' '] := String.data_append s " "
  rw [pyStrip, pyStrip, hdata, rtrim_append_space]

theorem foldl_concat_shift (l : List String) :
    ∀ a b : String, l.foldl (fun x t => x ++ t ++ " ") (a ++ b) =
      a ++ l.foldl (fun x t => x ++ t ++ " ") b := by
  induction l with
  | nil => intro a b; simp
  | cons t r ih =>
      intro a b
      simp only [List.foldl_cons]
      rw [String.append_assoc (a ++ b) t " ", String.append_assoc a b (t ++ " "),
        ← String.append_assoc b t " ", ih]

theorem foldl_concat_cons (t : String) (rest : List String) :
    (t :: rest).foldl (fun x s => x ++ s ++ " ") "" =
      t ++ " " ++ rest.foldl (fun x s => x ++ s ++ " ") "" := by
  simp only [List.foldl_cons, String.empty_append]
  calc rest.foldl (fun x s => x ++ s ++ " ") (t ++ " ")
      = rest.foldl (fun x s => x ++ s ++ " ") ((t ++ " ") ++ "") := by
        rw [String.append_empty]
    _ = (t ++ " ") ++ rest.foldl (fun x s => x ++ s ++ " ") "" :=
        foldl_concat_shift rest (t ++ " ") ""

theorem foldl_concat_eq_sepJoin :
    ∀ l : List String, l ≠ [] →
      l.foldl (fun x s => x ++ s ++ " ") "" = sepJoin l ++ " "
  | [], h => absurd rfl h
  | [t], _ => by
      rw [foldl_concat_cons]
      simp [sepJoin]
  | t :: r :: rs, _ => by
      rw [foldl_concat_cons, foldl_concat_eq_sepJoin (r :: rs) (by simp),
        show sepJoin (t :: r :: rs) = t ++ " " ++ sepJoin (r :: rs) from rfl]
      simp [String.append_assoc]

theorem assembleText_eq_spec (frags : List String) :
    assembleText frags = pyStrip (sepJoin frags) := by
  cases frags with
  | nil => rfl
  | cons t rest =>
      rw [assembleText, foldl_concat_eq_sepJoin (t :: rest) (by simp),
        pyStrip_append_space]

/-! ### Claim theorems -/

/-- C3: for every finite collection of regions produced by the engine
for one page, the processing order is the ascending stable sort by
(bbox y1, bbox x1): the output is pairwise ordered by the lexicographic
`(y1, x1)` key, is a permutation of the input, regions with identical
`(y1, x1)` retain their engine-reported relative order (the subsequence
of any fixed key equals the corresponding input subsequence), and an
empty input yields an empty output. -/
theorem ordering_engine_spec (l : List Region) :
    sortRegions ([] : List Region) = [] ∧
    (sortRegions l).Pairwise keyLeP ∧
    (sortRegions l).Perm l ∧
    ∀ v : Int × Int,
      (sortRegions l).filter (fun r => decide (sortKey r = v)) =
        l.filter (fun r => decide (sortKey r = v)) :=
  ⟨rfl, sortRegions_sorted l, sortRegions_perm l, sortRegions_filter_key l⟩

/-- C6: the assembled content of a text-routed region equals its
fragments concatenated with a single separating space between
consecutive fragments, with leading and trailing whitespace trimmed and
internal spacing preserved; an empty fragment sequence yields the empty
string, which is still recorded as a text entry with its own order
index, and `[" Hi ", "there"]` yields `"Hi  there"`. -/
theorem text_assembly_correct :
    (∀ frags : List String, assembleText frags = pyStrip (sepJoin frags)) ∧
    assembleText [] = "" ∧
    assembleText ["Hello", "World"] = "Hello World" ∧
    assembleText [" Hi ", "there"] = "Hi  there" ∧
    (process ⟨fun _ _ => some "i", fun _ => some "f"⟩ ExtractionType.TEXT_ONLY
        (Except.ok [⟨"text", ⟨0, 0, 1, 1⟩, ResPayload.fragments [], true⟩]) 0
        Aggregate.empty).texts = [⟨0, 0, ""⟩] :=
  ⟨assembleText_eq_spec, rfl, by decide, by decide, by decide⟩

/-- C8: on every processed page the emitted `order` values are exactly
`0..M-1` for the text entries (M = number of regions routed to text
assembly) and exactly `0..N-1` for the table entries (N = number of
table-routed regions whose markup is present), in processing order and
independently of interleaving; both counters restart at 0 on every call
because the new entries' orders always start from 0. -/
theorem order_counters_range (s3 : StorageIface) (mode : Nat) (results : List Region)
    (page : Nat) (agg : Aggregate) :
    ∃ ts tbs,
      (process s3 mode (Except.ok results) page agg).texts = agg.texts ++ ts ∧
      ts.map (fun e => e.order) =
        List.range ((sortRegions results).countP (fun e => textCond e.type mode)) ∧
      (process s3 mode (Except.ok results) page agg).tables = agg.tables ++ tbs ∧
      tbs.map (fun e => e.order) =
        List.range
          ((sortRegions results).countP (fun e => tableCond e.type mode && hasHtml e.res)) := by
  obtain ⟨ts, h1, h2, _⟩ := process_texts s3 mode results page agg
  obtain ⟨tbs, h1', h2', _⟩ := process_tables s3 mode results page agg
  exact ⟨ts, tbs, h1, h2, h1', h2'⟩

/-- C10: whenever S3 storage is not fully configured (`use_s3` false, or
the bucket name or bucket key falsy), `get_s3_link_or_local_path_for_file`
returns exactly its `src_filename` argument and never `None`. -/
theorem local_file_persist_identity (h : StorageHandler) (src filename ext : String)
    (hcfg : h.use_s3 = false ∨ pyTruthyStr h.bucket_name = false ∨
      pyTruthyStr h.bucket_key = false) :
    get_s3_link_or_local_path_for_file h src filename ext = some src := by
  unfold get_s3_link_or_local_path_for_file
  rcases hcfg with h1 | h1 | h1 <;> simp [h1]

/-- Witness for C10 at a concrete unconfigured handler. -/
theorem local_file_persist_identity_witness :
    ((⟨false, some "bucket", some "key", true, some "url"⟩ : StorageHandler).use_s3 = false ∨
      pyTruthyStr (some "bucket") = false ∨ pyTruthyStr (some "key") = false) ∧
    get_s3_link_or_local_path_for_file
      ⟨false, some "bucket", some "key", true, some "url"⟩
      "/tmp/excel_42_tempfile.xlsx" "0_0" "xlsx" = some "/tmp/excel_42_tempfile.xlsx" :=
  ⟨Or.inl rfl,
    local_file_persist_identity ⟨false, some "bucket", some "key", true, some "url"⟩
      "/tmp/excel_42_tempfile.xlsx" "0_0" "xlsx" (Or.inl rfl)⟩

/-- C2: the per-region routing decision matches the routing table
exactly for every (region type, mode) pair: coordinate recording fires
for `table`/`figure` iff mode ∈ {IMAGE_TABLE_COORDINATES, ALL}; figure
image persistence fires for `figure` iff mode ∈ {IMAGE_AND_TABLE, ALL}
and the size filter passes; text assembly fires for `text`/`figure` iff
mode ∈ {TEXT_ONLY, IMAGE_AND_TABLE, ALL}; table materialization fires
for `table` iff mode ∈ {TABLE_ONLY, TEXT_AND_TABLE, IMAGE_AND_TABLE,
ALL}; a pair matching no rule leaves the loop state unchanged (no
aggregate entry, no error). -/
theorem routing_table_exact :
    (∀ (t : String) (m : Nat), coordCond t m = true ↔
      ((t = "table" ∨ t = "figure") ∧
        (m = ExtractionType.IMAGE_TABLE_COORDINATES ∨ m = ExtractionType.ALL))) ∧
    (∀ (e : Region) (m : Nat), (figureCond e.type m && e.imgPassesFilter) = true ↔
      (e.type = "figure" ∧
        (m = ExtractionType.IMAGE_AND_TABLE ∨ m = ExtractionType.ALL) ∧
        e.imgPassesFilter = true)) ∧
    (∀ (t : String) (m : Nat), textCond t m = true ↔
      ((t = "text" ∨ t = "figure") ∧
        (m = ExtractionType.TEXT_ONLY ∨ m = ExtractionType.IMAGE_AND_TABLE ∨
          m = ExtractionType.ALL))) ∧
    (∀ (t : String) (m : Nat), tableCond t m = true ↔
      (t = "table" ∧
        (m = ExtractionType.TABLE_ONLY ∨ m = ExtractionType.TEXT_AND_TABLE ∨
          m = ExtractionType.IMAGE_AND_TABLE ∨ m = ExtractionType.ALL))) ∧
    (∀ (s3 : StorageIface) (m page idx : Nat) (e : Region) (st : LoopState),
      coordCond e.type m = false → figureCond e.type m = false →
      textCond e.type m = false → tableCond e.type m = false →
      processElement s3 m page idx e st = st) := by
  refine ⟨?_, ?_, ?_, ?_, ?_⟩
  · intro t m
    simp only [coordCond, Bool.and_eq_true, Bool.or_eq_true, beq_iff_eq]
    tauto
  · intro e m
    simp only [figureCond, Bool.and_eq_true, Bool.or_eq_true, beq_iff_eq]
    tauto
  · intro t m
    simp only [textCond, Bool.and_eq_true, Bool.or_eq_true, beq_iff_eq]
    tauto
  · intro t m
    simp only [tableCond, Bool.and_eq_true, Bool.or_eq_true, beq_iff_eq]
    tauto
  · intro s3 m page idx e st h1 h2 h3 h4
    simp [processElement, coordStep, figureStep, textStep, tableStep, h1, h2, h3, h4]

/-- Witness for C2: a `title` region in TEXT_ONLY mode matches no rule
and is skipped without touching the state. -/
theorem routing_table_exact_witness :
    coordCond "title" ExtractionType.TEXT_ONLY = false ∧
    figureCond "title" ExtractionType.TEXT_ONLY = false ∧
    textCond "title" ExtractionType.TEXT_ONLY = false ∧
    tableCond "title" ExtractionType.TEXT_ONLY = false ∧
    processElement ⟨fun _ _ => some "i", fun _ => some "f"⟩ ExtractionType.TEXT_ONLY 0 0
      ⟨"title", ⟨1, 2, 3, 4⟩, ResPayload.fragments ["x"], true⟩
      ⟨0, 0, [], [], Aggregate.empty⟩ = ⟨0, 0, [], [], Aggregate.empty⟩ :=
  ⟨by decide, by decide, by decide, by decide,
    routing_table_exact.2.2.2.2 ⟨fun _ _ => some "i", fun _ => some "f"⟩
      ExtractionType.TEXT_ONLY 0 0
      ⟨"title", ⟨1, 2, 3, 4⟩, ResPayload.fragments ["x"], true⟩
      ⟨0, 0, [], [], Aggregate.empty⟩ (by decide) (by decide) (by decide) (by decide)⟩

/-- C7: a table-routed region whose payload lacks the `"html"` markup
key emits no table record at all and does not advance `table_order`;
a table-routed region with markup present emits exactly one record and
advances `table_order` by exactly 1, regardless of the storage
persistence outcome. -/
theorem table_markup_gate (s3 : StorageIface) (mode page idx : Nat) (e : Region)
    (st : LoopState) (hroute : tableCond e.type mode = true) :
    (hasHtml e.res = false →
      (processElement s3 mode page idx e st).agg.tables = st.agg.tables ∧
      (processElement s3 mode page idx e st).table_sort_number = st.table_sort_number) ∧
    (hasHtml e.res = true →
      (∃ rec, (processElement s3 mode page idx e st).agg.tables = st.agg.tables ++ [rec]) ∧
      (processElement s3 mode page idx e st).table_sort_number =
        st.table_sort_number + 1) := by
  constructor
  · intro hh
    constructor
    · rw [processElement_tables]; simp [hh]
    · rw [processElement_table_sort]; simp [hh]
  · intro hh
    constructor
    · refine ⟨⟨page, st.table_sort_number,
          Link.str (pyStr (s3.fileLink s!"{page}_{st.table_sort_number}")),
          Link.str (pyStr (s3.imageLink s!"{page}_{st.table_sort_number}" "tables"))⟩, ?_⟩
      rw [processElement_tables]
      simp [hroute, hh]
    · rw [processElement_table_sort]; simp [hroute, hh]

/-- Witness for C7 at a concrete table region with markup present and a
failing file-persist. -/
theorem table_markup_gate_witness :
    tableCond "table" ExtractionType.TABLE_ONLY = true ∧
    ((hasHtml (ResPayload.tableRes (some "<table/>")) = false →
      (processElement ⟨fun _ _ => some "img", fun _ => none⟩ ExtractionType.TABLE_ONLY 0 0
        ⟨"table", ⟨0, 0, 5, 5⟩, ResPayload.tableRes (some "<table/>"), true⟩
        ⟨0, 0, [], [], Aggregate.empty⟩).agg.tables = Aggregate.empty.tables ∧
      (processElement ⟨fun _ _ => some "img", fun _ => none⟩ ExtractionType.TABLE_ONLY 0 0
        ⟨"table", ⟨0, 0, 5, 5⟩, ResPayload.tableRes (some "<table/>"), true⟩
        ⟨0, 0, [], [], Aggregate.empty⟩).table_sort_number = 0) ∧
    (hasHtml (ResPayload.tableRes (some "<table/>")) = true →
      (∃ rec, (processElement ⟨fun _ _ => some "img", fun _ => none⟩
        ExtractionType.TABLE_ONLY 0 0
        ⟨"table", ⟨0, 0, 5, 5⟩, ResPayload.tableRes (some "<table/>"), true⟩
        ⟨0, 0, [], [], Aggregate.empty⟩).agg.tables = Aggregate.empty.tables ++ [rec]) ∧
      (processElement ⟨fun _ _ => some "img", fun _ => none⟩ ExtractionType.TABLE_ONLY 0 0
        ⟨"table", ⟨0, 0, 5, 5⟩, ResPayload.tableRes (some "<table/>"), true⟩
        ⟨0, 0, [], [], Aggregate.empty⟩).table_sort_number = 0 + 1)) :=
  ⟨by decide,
    table_markup_gate ⟨fun _ _ => some "img", fun _ => none⟩ ExtractionType.TABLE_ONLY 0 0
      ⟨"table", ⟨0, 0, 5, 5⟩, ResPayload.tableRes (some "<table/>"), true⟩
      ⟨0, 0, [], [], Aggregate.empty⟩ (by decide)⟩

/-- C5 counterexample: with a table region whose markup is present, an
image-persist that succeeds and a file-persist that returns no link, the
emitted table record's `content_link` is the four-character *string*
`"None"` (the result of Python's `str(None)`), not the null value the
claim asserts; the record is nevertheless emitted. -/
theorem table_link_failure_counterexample :
    (process ⟨fun _ _ => some "imglink", fun _ => none⟩ ExtractionType.TABLE_ONLY
      (Except.ok [⟨"table", ⟨0, 0, 5, 5⟩, ResPayload.tableRes (some "<table/>"), true⟩]) 0
      Aggregate.empty).tables =
      [⟨0, 0, Link.str "None", Link.str "imglink"⟩] ∧
    Link.str "None" ≠ Link.null := ⟨by decide, by decide⟩

/-- C5 amended: when the file-persist returns no link and the
image-persist returns a link `u`, the emitted table record carries the
string `"None"` (the `str()` of the null link) as `content_link` and the
string `u` as `image_link`; the record is still emitted and
`table_order` still advances by exactly 1. -/
theorem table_link_failure_amended (s3 : StorageIface) (mode page idx : Nat) (e : Region)
    (st : LoopState) (u : String)
    (hroute : tableCond e.type mode = true) (hh : hasHtml e.res = true)
    (hfile : s3.fileLink s!"{page}_{st.table_sort_number}" = none)
    (himg : s3.imageLink s!"{page}_{st.table_sort_number}" "tables" = some u) :
    (processElement s3 mode page idx e st).agg.tables =
      st.agg.tables ++ [⟨page, st.table_sort_number, Link.str "None", Link.str u⟩] ∧
    (processElement s3 mode page idx e st).table_sort_number =
      st.table_sort_number + 1 := by
  constructor
  · rw [processElement_tables]
    simp [hroute, hh, hfile, himg, pyStr]
  · rw [processElement_table_sort]
    simp [hroute, hh]

/-- Witness for the amended C5 at a concrete region and storage. -/
theorem table_link_failure_amended_witness :
    tableCond "table" ExtractionType.TABLE_ONLY = true ∧
    hasHtml (ResPayload.tableRes (some "<table/>")) = true ∧
    (StorageIface.mk (fun _ _ => some "imglink") (fun _ => none)).fileLink "0_0" = none ∧
    (StorageIface.mk (fun _ _ => some "imglink") (fun _ => none)).imageLink "0_0" "tables" =
      some "imglink" ∧
    ((processElement ⟨fun _ _ => some "imglink", fun _ => none⟩ ExtractionType.TABLE_ONLY
        0 0 ⟨"table", ⟨0, 0, 5, 5⟩, ResPayload.tableRes (some "<table/>"), true⟩
        ⟨0, 0, [], [], Aggregate.empty⟩).agg.tables =
      Aggregate.empty.tables ++ [⟨0, 0, Link.str "None", Link.str "imglink"⟩] ∧
    (processElement ⟨fun _ _ => some "imglink", fun _ => none⟩ ExtractionType.TABLE_ONLY
        0 0 ⟨"table", ⟨0, 0, 5, 5⟩, ResPayload.tableRes (some "<table/>"), true⟩
        ⟨0, 0, [], [], Aggregate.empty⟩).table_sort_number = 0 + 1) :=
  ⟨by decide, by decide, rfl, rfl,
    table_link_failure_amended ⟨fun _ _ => some "imglink", fun _ => none⟩
      ExtractionType.TABLE_ONLY 0 0
      ⟨"table", ⟨0, 0, 5, 5⟩, ResPayload.tableRes (some "<table/>"), true⟩
      ⟨0, 0, [], [], Aggregate.empty⟩ "imglink" (by decide) (by decide) rfl rfl⟩

/-- C9 counterexample: an existing but undecodable source image makes
`Image.open` raise inside `read_image`, and nothing in `handler` catches
it, so the exception escapes the public entry point instead of an empty
aggregate being returned. -/
theorem handler_undecodable_counterexample :
    handler ⟨fun _ _ => some "i", fun _ => some "f"⟩ ExtractionType.ALL
      (fun _ => Except.ok []) (DocInput.docImage SourceFile.undecodable) =
      Except.error () := rfl

/-- C9 amended: when the source image file is missing (unreadable),
`read_image` logs and returns `None`, the engine invocation on that
`None` raises and is absorbed by `process`, and `handler` returns the
empty aggregate (all four sequences empty) without raising; but an
exception raised while decoding an existing file is not absorbed. -/
theorem handler_missing_file_amended (s3 : StorageIface) (mode : Nat)
    (engine : Option Nat → Except Unit (List Region))
    (hnull : engine none = Except.error ()) :
    handler s3 mode engine (DocInput.docImage SourceFile.missing) =
      Except.ok Aggregate.empty := by
  show Except.ok (process s3 mode (engine none) 0 Aggregate.empty) = _
  rw [hnull, process_error]

/-- Witness for the amended C9 with a concrete engine that raises on a
null image. -/
theorem handler_missing_file_amended_witness :
    (fun (_ : Option Nat) => (Except.error () : Except Unit (List Region))) none =
      Except.error () ∧
    handler ⟨fun _ _ => some "i", fun _ => some "f"⟩ ExtractionType.ALL
      (fun _ => Except.error ()) (DocInput.docImage SourceFile.missing) =
      Except.ok Aggregate.empty :=
  ⟨rfl, handler_missing_file_amended ⟨fun _ _ => some "i", fun _ => some "f"⟩
    ExtractionType.ALL (fun _ => Except.error ()) rfl⟩

/-- C4: if the engine raises on the page with index `k` of a scanned
document, the call still returns normally, the result equals the run in
which page `k` is skipped outright (all other pages processed with their
original page numbers), and no entry of any of the four result sequences
carries page number `k`. -/
theorem engine_failure_page_containment (s3 : StorageIface) (mode : Nat)
    (engine : Option Nat → Except Unit (List Region)) (pages : List Nat) (k : Nat)
    (hk : k < pages.length) (hfail : engine (some pages[k]) = Except.error ()) :
    ∃ A, handler s3 mode engine (DocInput.docPdf (PdfSource.decoded pages)) =
        Except.ok A ∧
      A = processPagesSkipping s3 mode engine k 0 pages Aggregate.empty ∧
      (∀ e ∈ A.texts, e.page_number ≠ k) ∧
      (∀ e ∈ A.tables, e.page_number ≠ k) ∧
      (∀ e ∈ A.images, e.page_number ≠ k) ∧
      (∀ b ∈ A.rect_coordinates, ∀ c ∈ b, c.page_number ≠ k) := by
  refine ⟨processPagesSkipping s3 mode engine k 0 pages Aggregate.empty,
    ?_, rfl, ?_, ?_, ?_, ?_⟩
  · show Except.ok (processPages s3 mode engine 0 pages Aggregate.empty) = _
    congr 1
    apply processPages_eq_skipping
    intro i h hi
    have hik : i = k := by omega
    subst hik
    exact hfail
  · intro e he
    rcases skipping_texts_mem s3 mode engine k pages 0 Aggregate.empty e he with h | h
    · simp [Aggregate.empty] at h
    · exact h
  · intro e he
    rcases skipping_tables_mem s3 mode engine k pages 0 Aggregate.empty e he with h | h
    · simp [Aggregate.empty] at h
    · exact h
  · intro e he
    rcases skipping_images_mem s3 mode engine k pages 0 Aggregate.empty e he with h | h
    · simp [Aggregate.empty] at h
    · exact h
  · intro b hb
    rcases skipping_rect_mem s3 mode engine k pages 0 Aggregate.empty b hb with h | h
    · simp [Aggregate.empty] at h
    · exact h

/-- Witness for C4: a three-page document whose engine raises on page 1
(the middle page) and finds one text region on the other pages. -/
theorem engine_failure_page_containment_witness :
    1 < ([10, 20, 30] : List Nat).length ∧
    (fun img? => match img? with
      | some 20 => (Except.error () : Except Unit (List Region))
      | _ => Except.ok [⟨"text", ⟨0, 0, 9, 9⟩, ResPayload.fragments ["w"], true⟩])
      (some (([10, 20, 30] : List Nat)[1])) = Except.error () ∧
    (∃ A, handler ⟨fun _ _ => some "i", fun _ => some "f"⟩ ExtractionType.TEXT_ONLY
        (fun img? => match img? with
          | some 20 => (Except.error () : Except Unit (List Region))
          | _ => Except.ok [⟨"text", ⟨0, 0, 9, 9⟩, ResPayload.fragments ["w"], true⟩])
        (DocInput.docPdf (PdfSource.decoded [10, 20, 30])) = Except.ok A ∧
      A = processPagesSkipping ⟨fun _ _ => some "i", fun _ => some "f"⟩
          ExtractionType.TEXT_ONLY
          (fun img? => match img? with
            | some 20 => (Except.error () : Except Unit (List Region))
            | _ => Except.ok [⟨"text", ⟨0, 0, 9, 9⟩, ResPayload.fragments ["w"], true⟩])
          1 0 [10, 20, 30] Aggregate.empty ∧
      (∀ e ∈ A.texts, e.page_number ≠ 1) ∧
      (∀ e ∈ A.tables, e.page_number ≠ 1) ∧
      (∀ e ∈ A.images, e.page_number ≠ 1) ∧
      (∀ b ∈ A.rect_coordinates, ∀ c ∈ b, c.page_number ≠ 1)) :=
  ⟨by decide, rfl,
    engine_failure_page_containment ⟨fun _ _ => some "i", fun _ => some "f"⟩
      ExtractionType.TEXT_ONLY
      (fun img? => match img? with
        | some 20 => (Except.error () : Except Unit (List Region))
        | _ => Except.ok [⟨"text", ⟨0, 0, 9, 9⟩, ResPayload.fragments ["w"], true⟩])
      [10, 20, 30] 1 (by decide) rfl⟩

/-- C1 (code-bug evaluation): the §8 end-to-end scenario — a single
image in mode TEXT_AND_TABLE with one table region (y1=100, x1=50), one
text region (y1=10, x1=10) and one figure region failing the size
filter — yields 0 text entries (not the 1 the claim states, because
`TEXT_AND_TABLE` is absent from the text-branch mode list at `ocr.py`
lines 193-199), 1 table entry with order 0 and page 0, 0 image entries
and 0 coordinate entries. -/
theorem text_and_table_scenario_eval :
    process ⟨fun _ _ => some "imglink", fun _ => some "filelink"⟩
      ExtractionType.TEXT_AND_TABLE
      (Except.ok [⟨"figure", ⟨0, 5, 20, 20⟩, ResPayload.noRes, false⟩,
        ⟨"table", ⟨50, 100, 200, 200⟩, ResPayload.tableRes (some "<table/>"), true⟩,
        ⟨"text", ⟨10, 10, 90, 30⟩, ResPayload.fragments ["hello"], true⟩]) 0
      Aggregate.empty =
      ⟨[], [], [⟨0, 0, Link.str "filelink", Link.str "imglink"⟩], []⟩ := by decide
